import Mathlib

/-!
Verification of the sparql_anything_rdf convenience layer.

Python strings are modelled as lists of characters (`PyStr`); Python
dictionaries with unique keys as association lists; rdflib graphs as a
structure holding a set-like list of triples plus namespace bindings.
The external rdflib capabilities (parsing a concrete serialization,
preparing a SPARQL query) are modelled as oracle parameters, since the
repository treats them as external collaborators.
-/

namespace SARDF



/-- Python strings as character lists. -/
abbrev PyStr := List Char

/-- Coerce a Lean string literal to the character-list model. -/
def toPy (s : String) : PyStr := s.data

/-- Characters stripped by Python str.strip(): space, tab, LF, CR, VT, FF. -/
def isPySpace (c : Char) : Bool :=
  c.toNat = 32 || c.toNat = 9 || c.toNat = 10 || c.toNat = 13 ||
  c.toNat = 11 || c.toNat = 12

/-- Python str.strip(): remove leading and trailing whitespace. -/
def trimPy (s : PyStr) : PyStr :=
  ((s.dropWhile isPySpace).reverse.dropWhile isPySpace).reverse

/-- Python str.lower() restricted to ASCII (the tables are ASCII). -/
def toLowerPy (s : PyStr) : PyStr := s.map Char.toLower

/-- Python str.upper() restricted to ASCII (the patterns are ASCII). -/
def toUpperPy (s : PyStr) : PyStr := s.map Char.toUpper

/-- The supported RDF formats (format_handler.py, enum RDFFormat). -/
inductive RDFFormat where
  | RDF_XML
  | TURTLE
  | N_TRIPLES
  | JSON_LD
  | TRIG
  | N_QUADS
  | TRIX
  | RDF_THRIFT
  | OWL_XML
  | DEFAULT
deriving DecidableEq

/-- MIME types to RDF format mapping (FormatHandler.MIME_TYPE_MAPPING). -/
def MIME_TYPE_MAPPING : List (PyStr × RDFFormat) := [
  (toPy "application/rdf+xml", .RDF_XML),
  (toPy "application/xml", .RDF_XML),
  (toPy "text/xml", .RDF_XML),
  (toPy "text/turtle", .TURTLE),
  (toPy "application/turtle", .TURTLE),
  (toPy "application/x-turtle", .TURTLE),
  (toPy "application/n-triples", .N_TRIPLES),
  (toPy "text/plain", .N_TRIPLES),
  (toPy "application/ld+json", .JSON_LD),
  (toPy "application/json", .JSON_LD),
  (toPy "text/trig", .TRIG),
  (toPy "application/trig", .TRIG),
  (toPy "application/n-quads", .N_QUADS),
  (toPy "text/n-quads", .N_QUADS),
  (toPy "application/trix+xml", .TRIX),
  (toPy "application/rdf+thrift", .RDF_THRIFT),
  (toPy "application/owl+xml", .OWL_XML)]

/-- File extensions to RDF format mapping (FormatHandler.EXTENSION_MAPPING). -/
def EXTENSION_MAPPING : List (PyStr × RDFFormat) := [
  (toPy ".rdf", .RDF_XML),
  (toPy ".xml", .RDF_XML),
  (toPy ".ttl", .TURTLE),
  (toPy ".nt", .N_TRIPLES),
  (toPy ".jsonld", .JSON_LD),
  (toPy ".trig", .TRIG),
  (toPy ".nq", .N_QUADS),
  (toPy ".trix", .TRIX),
  (toPy ".trdf", .RDF_THRIFT),
  (toPy ".owl", .OWL_XML)]

/-- Index of the last occurrence of a character (Python str.rfind). -/
def rfindIdx (c : Char) : PyStr → Option Nat
  | [] => none
  | a :: t =>
    match rfindIdx c t with
    | some i => some (i + 1)
    | none => if a = c then some 0 else none

/-- Final path component: pathlib drops empty components, so trailing and
repeated slashes are ignored. -/
def pathName (s : PyStr) : PyStr :=
  (((s.splitOn '/').filter (fun p => p ≠ [])).getLastD [])

/-- Path suffix following CPython pathlib: the part of the final component
from its last dot, provided that dot is neither leading nor trailing. -/
def pathSuffix (s : PyStr) : PyStr :=
  let nm := pathName s
  match rfindIdx '.' nm with
  | none => []
  | some i => if 0 < i ∧ i < nm.length - 1 then nm.drop i else []

/-- Content-type normalization in detect_format: when a parameter suffix is
present, keep the part before the first semicolon and strip it. -/
def stripParams (ct : PyStr) : PyStr :=
  if ct.contains ';' then trimPy (ct.takeWhile (fun c => c ≠ ';')) else ct

/-- FormatHandler.detect_format: MIME lookup first (when a non-empty
content type is given), then lowercase file-extension lookup, with
RDF/XML as the final default. -/
def detect_format (source : PyStr) (content_type : Option PyStr) : RDFFormat :=
  let viaMime : Option RDFFormat :=
    match content_type with
    | none => none
    | some ct => if ct = [] then none else MIME_TYPE_MAPPING.lookup (stripParams ct)
  match viaMime with
  | some f => f
  | none =>
    match EXTENSION_MAPPING.lookup (toLowerPy (pathSuffix source)) with
    | some f => f
    | none => .RDF_XML

/-- The fixed ordered candidate list of the fallback retry policy
(RDFParser._try_alternative_formats, the alternatives literal). -/
def FALLBACK_CANDIDATES : List RDFFormat :=
  [.TURTLE, .RDF_XML, .N_TRIPLES, .JSON_LD]

/-- The list actually probed: Python list.remove drops the failed format
only when it occurs in the candidate list. -/
def alternativesFor (failed : RDFFormat) : List RDFFormat :=
  if failed ∈ FALLBACK_CANDIDATES then FALLBACK_CANDIDATES.erase failed
  else FALLBACK_CANDIDATES

/-- Linear probe of the retry loop: each attempt parses a fresh empty graph
(the loop body rebinds graph = Graph() before parsing), so an attempt's
outcome depends only on the format; none models the final RDFParsingError. -/
def firstSuccess {G : Type} (parseFmt : RDFFormat → Option G) :
    List RDFFormat → Option G
  | [] => none
  | f :: rest =>
    match parseFmt f with
    | some g => some g
    | none => firstSuccess parseFmt rest

/-- RDFParser._try_alternative_formats over a parse oracle. -/
def try_alternative_formats {G : Type} (parseFmt : RDFFormat → Option G)
    (failed : RDFFormat) : Option G :=
  firstSuccess parseFmt (alternativesFor failed)

/-- Number of parse attempts the probe performs on a candidate list:
it stops right after the first success. -/
def attemptsCount {G : Type} (parseFmt : RDFFormat → Option G) :
    List RDFFormat → Nat
  | [] => 0
  | f :: rest =>
    match parseFmt f with
    | some _ => 1
    | none => 1 + attemptsCount parseFmt rest

/-- An all-failing parse oracle, used as a concrete test input. -/
def parseNone : RDFFormat → Option Unit := fun _ => none

/-- A parse oracle on which only RDF/XML succeeds, a concrete test input. -/
def parseOnlyXml : RDFFormat → Option Unit :=
  fun f => if f = .RDF_XML then some () else none

/-- RDF node: URI reference, blank node, or literal, each carrying the
string form that Python str() renders for it. -/
inductive Node where
  | uriref (s : PyStr)
  | bnode (s : PyStr)
  | literal (s : PyStr)
deriving DecidableEq

/-- Python str() of a node (URI text, blank-node id, lexical form). -/
def nodeStr : Node → PyStr
  | .uriref s => s
  | .bnode s => s
  | .literal s => s

/-- An RDF triple. -/
structure Triple where
  subj : Node
  pred : Node
  obj : Node
deriving DecidableEq

/-- An rdflib graph: a set of triples (modelled as a duplicate-free-by-add
list in one iteration order) plus namespace bindings. -/
structure RGraph where
  triples : List Triple
  ns : List (PyStr × PyStr)
deriving DecidableEq

/-- Graph() constructor: fresh empty graph. -/
def emptyGraph : RGraph := ⟨[], []⟩

/-- rdflib Graph.add: set insertion, a duplicate triple is a no-op. -/
def RGraph.add (g : RGraph) (t : Triple) : RGraph :=
  if t ∈ g.triples then g else { g with triples := g.triples ++ [t] }

/-- rdflib Graph.bind: record a namespace binding, replacing the value of
an already-bound entry. -/
def RGraph.bindNs (g : RGraph) (p uri : PyStr) : RGraph :=
  if (g.ns.lookup p).isSome then
    { g with ns := g.ns.map (fun kv => if kv.1 = p then (p, uri) else kv) }
  else
    { g with ns := g.ns ++ [(p, uri)] }

/-- The common namespaces bound by RDFToRDF._add_common_namespaces
(configuration-free instance). -/
def common_namespaces : List (PyStr × PyStr) := [
  (toPy "rdf", toPy "http://www.w3.org/1999/02/22-rdf-syntax-ns#"),
  (toPy "rdfs", toPy "http://www.w3.org/2000/01/rdf-schema#"),
  (toPy "xsd", toPy "http://www.w3.org/2001/XMLSchema#"),
  (toPy "owl", toPy "http://www.w3.org/2002/07/owl#")]

/-- RDFToRDF._add_common_namespaces: bind the four common namespaces. -/
def add_common_namespaces (g : RGraph) : RGraph :=
  common_namespaces.foldl (fun g p => g.bindNs p.1 p.2) g

/-- Accumulator of the loop in RDFToRDF.validate_graph: the three Python
sets and the three numeric tallies. -/
structure VAcc where
  ss : Finset Node
  ps : Finset Node
  os : Finset Node
  bn : Nat
  lit : Nat
  uri : Nat

/-- One iteration of the validate_graph loop: add the components to the
sets, then the isinstance elif chains on the subject (BNode, URIRef) and
on the object (Literal, URIRef, BNode); nothing inspects the predicate. -/
def validateStep (acc : VAcc) (t : Triple) : VAcc :=
  let acc := { acc with ss := insert t.subj acc.ss,
                        ps := insert t.pred acc.ps,
                        os := insert t.obj acc.os }
  let acc :=
    match t.subj with
    | .bnode _ => { acc with bn := acc.bn + 1 }
    | .uriref _ => { acc with uri := acc.uri + 1 }
    | .literal _ => acc
  match t.obj with
  | .literal _ => { acc with lit := acc.lit + 1 }
  | .uriref _ => { acc with uri := acc.uri + 1 }
  | .bnode _ => { acc with bn := acc.bn + 1 }

/-- The statistics dictionary returned by RDFToRDF.validate_graph, after
the sets have been replaced by their cardinalities. -/
structure ValidationStats where
  total_triples : Nat
  unique_subjects : Nat
  unique_predicates : Nat
  unique_objects : Nat
  blank_nodes : Nat
  literals : Nat
  uris : Nat
  errors : List PyStr
deriving DecidableEq

/-- RDFToRDF.validate_graph: total count, one pass over the triples, set
cardinalities reported as unique counts; the pure model has no read
errors, so the errors list stays empty. -/
def validate_graph (g : RGraph) : ValidationStats :=
  let r := g.triples.foldl validateStep ⟨∅, ∅, ∅, 0, 0, 0⟩
  { total_triples := g.triples.length
    unique_subjects := r.ss.card
    unique_predicates := r.ps.card
    unique_objects := r.os.card
    blank_nodes := r.bn
    literals := r.lit
    uris := r.uri
    errors := [] }

/-- Test for being a blank node. -/
def isBNodeB : Node → Bool
  | .bnode _ => true
  | _ => false

/-- Test for being a literal. -/
def isLitB : Node → Bool
  | .literal _ => true
  | _ => false

/-- Test for being a URI reference. -/
def isUriB : Node → Bool
  | .uriref _ => true
  | _ => false

/-- A concrete graph with one all-URI triple, a test input. -/
def exUriGraph : RGraph :=
  ⟨[⟨.uriref (toPy "http://example.org/a"),
     .uriref (toPy "http://example.org/p"),
     .uriref (toPy "http://example.org/b")⟩], []⟩

/-- Number of URI occurrences over all three positions of every triple,
which is what the claim asserts the uris statistic counts. -/
def uriOccurrencesAllPositions (g : RGraph) : Nat :=
  (g.triples.map (fun t => [t.subj, t.pred, t.obj].countP isUriB)).sum

/-- Python truthiness of an optional list argument: None and the empty
list are both falsy. -/
def truthy (flt : Option (List PyStr)) : Bool :=
  match flt with
  | none => false
  | some l => !l.isEmpty

/-- The include flag of the RDFToRDF.filter_graph loop body: the three
sequential short-circuit tests on the predicate, subject and object. -/
def includeTriple (pf sf obf : Option (List PyStr)) (t : Triple) : Bool :=
  let inc := true
  let inc := if truthy pf && !((pf.getD []).contains (nodeStr t.pred)) then false else inc
  let inc := if truthy sf && !((sf.getD []).contains (nodeStr t.subj)) then false else inc
  let inc := if truthy obf && !((obf.getD []).contains (nodeStr t.obj)) then false else inc
  inc

/-- RDFToRDF.filter_graph: fresh graph, common namespaces, then one pass
adding every triple whose include flag survived the three tests. -/
def filter_graph (g : RGraph) (pf sf obf : Option (List PyStr)) : RGraph :=
  g.triples.foldl
    (fun fg t => if includeTriple pf sf obf t then fg.add t else fg)
    (add_common_namespaces emptyGraph)

/-- Schema vocabulary URIs used by RDFToRDF.extract_schema. -/
def RDF_type : Node := .uriref (toPy "http://www.w3.org/1999/02/22-rdf-syntax-ns#type")

/-- The rdfs:Class URI. -/
def RDFS_Class : Node := .uriref (toPy "http://www.w3.org/2000/01/rdf-schema#Class")

/-- The owl:Class URI. -/
def OWL_Class : Node := .uriref (toPy "http://www.w3.org/2002/07/owl#Class")

/-- The rdfs:subClassOf URI. -/
def RDFS_subClassOf : Node := .uriref (toPy "http://www.w3.org/2000/01/rdf-schema#subClassOf")

/-- The owl:equivalentClass URI. -/
def OWL_equivalentClass : Node := .uriref (toPy "http://www.w3.org/2002/07/owl#equivalentClass")

/-- The rdf:Property URI. -/
def RDF_Property : Node := .uriref (toPy "http://www.w3.org/1999/02/22-rdf-syntax-ns#Property")

/-- The owl:ObjectProperty URI. -/
def OWL_ObjectProperty : Node := .uriref (toPy "http://www.w3.org/2002/07/owl#ObjectProperty")

/-- The owl:DatatypeProperty URI. -/
def OWL_DatatypeProperty : Node := .uriref (toPy "http://www.w3.org/2002/07/owl#DatatypeProperty")

/-- The owl:AnnotationProperty URI. -/
def OWL_AnnotationProperty : Node := .uriref (toPy "http://www.w3.org/2002/07/owl#AnnotationProperty")

/-- The rdfs:domain URI. -/
def RDFS_domain : Node := .uriref (toPy "http://www.w3.org/2000/01/rdf-schema#domain")

/-- The rdfs:range URI. -/
def RDFS_range : Node := .uriref (toPy "http://www.w3.org/2000/01/rdf-schema#range")

/-- The rdfs:subPropertyOf URI. -/
def RDFS_subPropertyOf : Node := .uriref (toPy "http://www.w3.org/2000/01/rdf-schema#subPropertyOf")

/-- The elif chain of RDFToRDF.extract_schema: a triple is kept when some
branch matches (each branch adds the triple once). -/
def isSchemaTriple (t : Triple) : Bool :=
  if t.pred = RDF_type ∧ (t.obj = RDFS_Class ∨ t.obj = OWL_Class) then true
  else if t.pred = RDFS_subClassOf ∨ t.pred = OWL_equivalentClass then true
  else if t.pred = RDF_type ∧ (t.obj = RDF_Property ∨ t.obj = OWL_ObjectProperty
          ∨ t.obj = OWL_DatatypeProperty ∨ t.obj = OWL_AnnotationProperty) then true
  else if t.pred = RDFS_domain ∨ t.pred = RDFS_range ∨ t.pred = RDFS_subPropertyOf then true
  else false

/-- RDFToRDF.extract_schema: fresh graph, common namespaces, keep exactly
the schema-vocabulary triples. -/
def extract_schema (g : RGraph) : RGraph :=
  g.triples.foldl
    (fun sg t => if isSchemaTriple t then sg.add t else sg)
    (add_common_namespaces emptyGraph)

/-- State-passing rendering of the filter_graph loop: the pair carries the
input graph through every iteration; faithful to the Python body, each
iteration writes only the fresh filtered graph. -/
def filter_graph_run (g : RGraph) (pf sf obf : Option (List PyStr)) :
    RGraph × RGraph :=
  g.triples.foldl
    (fun st t => (st.1, if includeTriple pf sf obf t then st.2.add t else st.2))
    (g, add_common_namespaces emptyGraph)

/-- State-passing rendering of the extract_schema loop, carrying the input
graph through every iteration unchanged by the body. -/
def extract_schema_run (g : RGraph) : RGraph × RGraph :=
  g.triples.foldl
    (fun st t => (st.1, if isSchemaTriple t then st.2.add t else st.2))
    (g, add_common_namespaces emptyGraph)

/-- The constraint a single optional allow-list imposes on a component's
string form: absent and empty lists pass everything, a non-empty list
passes exactly its members. -/
def constraintB (flt : Option (List PyStr)) (x : PyStr) : Bool :=
  match flt with
  | none => true
  | some l => l.isEmpty || l.contains x

/-- A concrete triple used in counterexamples and witnesses. -/
def exTriple : Triple :=
  ⟨.uriref (toPy "http://example.org/s"),
   .uriref (toPy "http://example.org/q"),
   .uriref (toPy "http://example.org/o")⟩

/-- A concrete one-triple graph. -/
def exGraph1 : RGraph := ⟨[exTriple], []⟩

/-- The inner double loop of RDFToRDF.merge_graphs: add all triples of a
list into the target graph. -/
def addAll (tg : RGraph) (ts : List Triple) : RGraph :=
  ts.foldl RGraph.add tg

/-- RDFToRDF.merge_graphs: start from the optionally supplied target or a
fresh graph, bind the common namespaces, then add every triple of every
input graph; the set-semantics add collapses duplicates. -/
def merge_graphs (graphs : List RGraph) (target : Option RGraph) : RGraph :=
  let tg := match target with
    | none => emptyGraph
    | some t => t
  let tg := add_common_namespaces tg
  graphs.foldl (fun tg g => addAll tg g.triples) tg

/-- A second concrete one-triple graph, disjoint from exGraph1. -/
def exGraph2 : RGraph :=
  ⟨[⟨.uriref (toPy "http://example.org/s2"),
     .uriref (toPy "http://example.org/q2"),
     .uriref (toPy "http://example.org/o2")⟩], []⟩

/-- RDFParser.parse_to_dataset over a parse oracle: each source is parsed
independently; a successful parse is registered as a named graph under the
source's string form, a failing one is logged and skipped (the
except/continue branch), so the function returns a dataset on every input
instead of raising. -/
def parse_to_dataset {E : Type} (parseSrc : PyStr → Except E RGraph)
    (sources : List PyStr) : List (PyStr × RGraph) :=
  sources.foldl
    (fun ds s =>
      match parseSrc s with
      | .ok g => ds ++ [(s, g)]
      | .error _ => ds)
    []

/-- RDFParser.parse: any failure of the underlying parse is wrapped into an
RDFParsingError whose message cites the cause, then raised. -/
def parse_wrap {E : Type} (inner : PyStr → Except E RGraph) (toMsg : E → PyStr)
    (s : PyStr) : Except PyStr RGraph :=
  match inner s with
  | .ok g => .ok g
  | .error e => .error (toPy "RDF parsing failed: " ++ toMsg e)

/-- A parse oracle failing on every source, a concrete test input. -/
def failingOracle : PyStr → Except Unit RGraph := fun _ => .error ()

/-- Python substring membership: needle in haystack. -/
def isSubstr (needle : PyStr) : PyStr → Bool
  | [] => needle.isEmpty
  | a :: t => needle.isPrefixOf (a :: t) || isSubstr needle t

/-- The fixed default prefixes of SPARQLProcessor (self.default_prefixes). -/
def default_prefixes : List (PyStr × PyStr) := [
  (toPy "rdf", toPy "http://www.w3.org/1999/02/22-rdf-syntax-ns#"),
  (toPy "rdfs", toPy "http://www.w3.org/2000/01/rdf-schema#"),
  (toPy "xsd", toPy "http://www.w3.org/2001/XMLSchema#"),
  (toPy "owl", toPy "http://www.w3.org/2002/07/owl#"),
  (toPy "foaf", toPy "http://xmlns.com/foaf/0.1/"),
  (toPy "dc", toPy "http://purl.org/dc/elements/1.1/"),
  (toPy "dcterms", toPy "http://purl.org/dc/terms/"),
  (toPy "skos", toPy "http://www.w3.org/2004/02/skos/core#"),
  (toPy "ex", toPy "http://example.org/")]

/-- The declaration line built for a missing default entry. -/
def prefixDeclOf (p : PyStr × PyStr) : PyStr :=
  toPy "PREFIX " ++ p.1 ++ toPy ": <" ++ p.2 ++ toPy ">"

/-- SPARQLProcessor._add_default_prefixes (configuration-free instance):
uppercase the query once, collect a declaration for every default entry
whose pattern is absent, and prepend the joined declarations; with nothing
to add the query is returned unchanged. -/
def add_default_prefixes (q : PyStr) : PyStr :=
  let qUpper := toUpperPy q
  let decls := default_prefixes.foldl
    (fun acc p =>
      if isSubstr (toPy "PREFIX " ++ toUpperPy p.1 ++ toPy ":") qUpper then acc
      else acc ++ [prefixDeclOf p])
    []
  if decls = [] then q
  else List.intercalate (toPy "\n") decls ++ toPy "\n\n" ++ q

/-- Case-insensitive presence of the declaration pattern of a named
default entry in the query text, as the spec phrases it. -/
def patternPresent (name q : PyStr) : Bool :=
  isSubstr (toUpperPy (toPy "PREFIX " ++ name ++ toPy ":")) (toUpperPy q)

/-- The spec's description of prefix injection: exactly the entries whose
pattern is absent are prepended, in table order. -/
def add_default_prefixes_spec (q : PyStr) : PyStr :=
  let missing := default_prefixes.filter (fun p => !patternPresent p.1 q)
  if missing = [] then q
  else List.intercalate (toPy "\n") (missing.map prefixDeclOf) ++ toPy "\n\n" ++ q

/-- A concrete query already declaring all nine default patterns. -/
def allNineQuery : PyStr :=
  toPy "PREFIX rdf: <u> PREFIX rdfs: <u> PREFIX xsd: <u> PREFIX owl: <u> PREFIX foaf: <u> PREFIX dc: <u> PREFIX dcterms: <u> PREFIX skos: <u> PREFIX ex: <u> SELECT ?s"

/-- SPARQLProcessor._get_query_type: uppercase, strip, then match the
leading keyword. -/
def get_query_type (q : PyStr) : PyStr :=
  let qu := trimPy (toUpperPy q)
  if (toPy "SELECT").isPrefixOf qu then toPy "SELECT"
  else if (toPy "CONSTRUCT").isPrefixOf qu then toPy "CONSTRUCT"
  else if (toPy "ASK").isPrefixOf qu then toPy "ASK"
  else if (toPy "DESCRIBE").isPrefixOf qu then toPy "DESCRIBE"
  else toPy "UNKNOWN"

/-- Case-insensitive prefix match of a keyword against a text. -/
def ciStartsWith (text kw : PyStr) : Bool :=
  (toUpperPy kw).isPrefixOf (toUpperPy text)

/-- The spec's description of the query type: the leading keyword
determined by case-insensitive prefix match on the trimmed text. -/
def leadingKeywordSpec (q : PyStr) : PyStr :=
  let t := trimPy q
  if ciStartsWith t (toPy "SELECT") then toPy "SELECT"
  else if ciStartsWith t (toPy "CONSTRUCT") then toPy "CONSTRUCT"
  else if ciStartsWith t (toPy "ASK") then toPy "ASK"
  else if ciStartsWith t (toPy "DESCRIBE") then toPy "DESCRIBE"
  else toPy "UNKNOWN"

/-- Python split(c, 1): the text before the first occurrence, and the text
after it when the separator occurs at all. -/
def splitOnce (c : Char) : PyStr → PyStr × Option PyStr
  | [] => ([], none)
  | a :: t =>
    if a = c then ([], some t)
    else
      match splitOnce c t with
      | (pre, rest) => (a :: pre, rest)

/-- Accumulator pass of Python str.split() with no separator: whitespace
runs delimit words, no empty words are produced. -/
def pyWordsAux : PyStr → PyStr → List PyStr
  | cur, [] => if cur = [] then [] else [cur.reverse]
  | cur, a :: t =>
    if isPySpace a then
      if cur = [] then pyWordsAux [] t else cur.reverse :: pyWordsAux [] t
    else pyWordsAux (a :: cur) t

/-- Python str.split() with no separator. -/
def pyWords (s : PyStr) : List PyStr := pyWordsAux [] s

/-- Python strip of angle brackets from both ends. -/
def stripAngles (s : PyStr) : PyStr :=
  ((s.dropWhile (fun c => c = '<' || c = '>')).reverse.dropWhile
      (fun c => c = '<' || c = '>')).reverse

/-- Python dict assignment on an association list: an existing key keeps
its position and takes the new value, a fresh key is appended. -/
def assocSet (m : List (PyStr × PyStr)) (k v : PyStr) : List (PyStr × PyStr) :=
  if (m.lookup k).isSome then
    m.map (fun kv => if kv.1 = k then (k, v) else kv)
  else m ++ [(k, v)]

/-- SPARQLProcessor._extract_prefixes: scan the lines, keep those whose
stripped form starts with PREFIX case-insensitively, split once on the
colon, take the last whitespace-delimited word before it as the name and
the stripped angle-bracket-trimmed remainder as the URI; a line with no
colon, or an index error on the word list, is skipped. -/
def extract_prefixes (q : PyStr) : List (PyStr × PyStr) :=
  (q.splitOn '\n').foldl
    (fun acc line =>
      let line := trimPy line
      if (toPy "PREFIX").isPrefixOf (toUpperPy line) then
        match (splitOnce ':' line).2 with
        | some after =>
          match (pyWords (splitOnce ':' line).1).getLast? with
          | some nm => assocSet acc nm (stripAngles (trimPy after))
          | none => acc
        | none => acc
      else acc)
    []

/-- The validation dictionary returned by SPARQLProcessor.validate_query. -/
structure ValidationResult where
  valid : Bool
  query_type : Option PyStr
  prefixes : List (PyStr × PyStr)
  errors : List PyStr
deriving DecidableEq

/-- SPARQLProcessor.validate_query over a preparation oracle standing for
rdflib prepareQuery: preparation is attempted on the query with the
default prefixes injected; success fills in the query type and the
extracted prefixes, any failure is caught and recorded as an error string,
so the function is total and never raises. -/
def validate_query (prep : PyStr → Except PyStr Unit) (q : PyStr) :
    ValidationResult :=
  match prep (add_default_prefixes q) with
  | .ok _ =>
    { valid := true
      query_type := some (get_query_type q)
      prefixes := extract_prefixes q
      errors := [] }
  | .error e =>
    { valid := false
      query_type := none
      prefixes := []
      errors := [e] }

/-- A preparation oracle accepting everything, a concrete test input. -/
def prepOkOracle : PyStr → Except PyStr Unit := fun _ => .ok ()

/-- A preparation oracle rejecting everything with a fixed message, a
concrete test input. -/
def prepFailOracle : PyStr → Except PyStr Unit :=
  fun _ => .error (toPy "Expected SelectQuery, found end of text")

/-- The concrete example query of the spec. -/
def exSelectQuery : PyStr :=
  toPy "SELECT ?s ?p ?o WHERE \x7b ?s ?p ?o \x7d"

lemma firstSuccess_eq_find {G : Type} (parseFmt : RDFFormat → Option G)
    (l : List RDFFormat) :
    firstSuccess parseFmt l
      = (l.find? (fun f => (parseFmt f).isSome)).bind parseFmt := by
  induction l with
  | nil => rfl
  | cons f rest ih =>
    simp only [firstSuccess, List.find?]
    cases h : parseFmt f with
    | some g => simp [h]
    | none => simp [h, ih]

lemma attemptsCount_le_length {G : Type} (parseFmt : RDFFormat → Option G)
    (l : List RDFFormat) : attemptsCount parseFmt l ≤ l.length := by
  induction l with
  | nil => simp [attemptsCount]
  | cons f rest ih =>
    simp only [attemptsCount, List.length_cons]
    cases parseFmt f <;> simp <;> omega

lemma alternativesFor_eq_filter (failed : RDFFormat) :
    alternativesFor failed = FALLBACK_CANDIDATES.filter (fun f => f ≠ failed) := by
  cases failed <;> rfl

/-- C4: every extension-table entry maps to exactly its format, every
MIME-table entry maps to exactly its format, also with a charset parameter
suffix appended, and an unrecognized extension with no content type yields
RDF/XML. -/
theorem C4_detect_format_tables :
    (∀ p ∈ EXTENSION_MAPPING, detect_format (toPy "file" ++ p.1) none = p.2)
    ∧ (∀ p ∈ MIME_TYPE_MAPPING,
        detect_format (toPy "src") (some p.1) = p.2
        ∧ detect_format (toPy "src") (some (p.1 ++ toPy ";charset=utf-8")) = p.2)
    ∧ (∀ s : PyStr, EXTENSION_MAPPING.lookup (toLowerPy (pathSuffix s)) = none →
        detect_format s none = .RDF_XML) := by
  refine ⟨by decide, by decide, ?_⟩
  intro s h
  simp only [detect_format, h]

/-- Witness for C4 at the concrete unrecognized extension ".zzz". -/
theorem C4_witness : detect_format (toPy "file.zzz") none = .RDF_XML :=
  C4_detect_format_tables.2.2 (toPy "file.zzz") (by decide)

/-- C8: a given content type that is not in the MIME table (after parameter
stripping) does not short-circuit to the default; detection falls through to
the extension lookup, exactly as if no content type had been given, and
RDF/XML appears only when that lookup fails as well. -/
theorem C8_unrecognized_content_type_falls_back (s ct : PyStr)
    (hmiss : MIME_TYPE_MAPPING.lookup (stripParams ct) = none) :
    detect_format s (some ct) = detect_format s none
    ∧ (∀ f, EXTENSION_MAPPING.lookup (toLowerPy (pathSuffix s)) = some f →
        detect_format s (some ct) = f)
    ∧ (EXTENSION_MAPPING.lookup (toLowerPy (pathSuffix s)) = none →
        detect_format s (some ct) = .RDF_XML) := by
  have hbranch : detect_format s (some ct) = detect_format s none := by
    by_cases hct : ct = [] <;> simp [detect_format, hct, hmiss]
  refine ⟨hbranch, ?_, ?_⟩
  · intro f hf
    rw [hbranch]
    simp [detect_format, hf]
  · intro hnone
    rw [hbranch]
    simp [detect_format, hnone]

/-- Witness for C8: an unknown MIME type combined with a Turtle extension
yields Turtle, not the RDF/XML default. -/
theorem C8_witness :
    detect_format (toPy "f.ttl") (some (toPy "application/zzz"))
      = detect_format (toPy "f.ttl") none
    ∧ detect_format (toPy "f.ttl") (some (toPy "application/zzz")) = .TURTLE :=
  ⟨(C8_unrecognized_content_type_falls_back (toPy "f.ttl") (toPy "application/zzz")
      (by decide)).1,
   (C8_unrecognized_content_type_falls_back (toPy "f.ttl") (toPy "application/zzz")
      (by decide)).2.1 .TURTLE (by decide)⟩

/-- C1 counterexample: when the originally-attempted format is TriG (which
is not one of the four candidates), nothing is removed from the candidate
list, and a source that fails under every candidate undergoes 4 parse
attempts, not at most 3. -/
theorem C1_counterexample :
    (alternativesFor .TRIG).length = 4
    ∧ attemptsCount parseNone (alternativesFor .TRIG) = 4
    ∧ ¬ attemptsCount parseNone (alternativesFor .TRIG) ≤ 3 := by
  decide

/-- C1 (amended): the retry probes the fixed ordered candidate list with the
originally-attempted format removed, each attempt reparses a fresh empty
graph via the oracle, the first successfully parsing candidate wins, a
ParsingError (modelled as none) arises when all candidates fail, and the
probe is bounded by 4 attempts in general and by 3 attempts whenever the
originally-attempted format is itself one of the four candidates. -/
theorem C1_retry_policy {G : Type} (parseFmt : RDFFormat → Option G)
    (failed : RDFFormat) :
    alternativesFor failed = FALLBACK_CANDIDATES.filter (fun f => f ≠ failed)
    ∧ try_alternative_formats parseFmt failed
        = ((alternativesFor failed).find? (fun f => (parseFmt f).isSome)).bind parseFmt
    ∧ ((∀ f ∈ alternativesFor failed, parseFmt f = none) →
        try_alternative_formats parseFmt failed = none)
    ∧ attemptsCount parseFmt (alternativesFor failed) ≤ 4
    ∧ (failed ∈ FALLBACK_CANDIDATES →
        attemptsCount parseFmt (alternativesFor failed) ≤ 3) := by
  refine ⟨alternativesFor_eq_filter failed, firstSuccess_eq_find parseFmt _, ?_, ?_, ?_⟩
  · intro hall
    rw [try_alternative_formats, firstSuccess_eq_find]
    have : (alternativesFor failed).find? (fun f => (parseFmt f).isSome) = none := by
      rw [List.find?_eq_none]
      intro f hf
      simp [hall f hf]
    simp [this]
  · calc attemptsCount parseFmt (alternativesFor failed)
        ≤ (alternativesFor failed).length := attemptsCount_le_length parseFmt _
      _ ≤ 4 := by cases failed <;> decide
  · intro hmem
    calc attemptsCount parseFmt (alternativesFor failed)
        ≤ (alternativesFor failed).length := attemptsCount_le_length parseFmt _
      _ ≤ 3 := by
          revert hmem
          cases failed <;> decide

/-- Witness for C1 at the concrete oracles: all candidates failing for a
TriG original yields the error outcome, and a Turtle original stays within
3 attempts. -/
theorem C1_witness :
    try_alternative_formats parseNone .TRIG = none
    ∧ attemptsCount parseOnlyXml (alternativesFor .TURTLE) ≤ 3 :=
  ⟨(C1_retry_policy parseNone .TRIG).2.2.1 (by decide),
   (C1_retry_policy parseOnlyXml .TURTLE).2.2.2.2 (by decide)⟩

lemma bindNs_triples (g : RGraph) (p uri : PyStr) :
    (g.bindNs p uri).triples = g.triples := by
  unfold RGraph.bindNs
  split <;> rfl

lemma add_common_namespaces_triples (g : RGraph) :
    (add_common_namespaces g).triples = g.triples := by
  simp [add_common_namespaces, common_namespaces, bindNs_triples]

lemma mem_add (g : RGraph) (t t' : Triple) :
    t' ∈ (g.add t).triples ↔ t' = t ∨ t' ∈ g.triples := by
  unfold RGraph.add
  split
  · rename_i hmem
    constructor
    · exact fun h => Or.inr h
    · rintro (rfl | h)
      · exact hmem
      · exact h
  · simp [or_comm]

lemma add_length_le (g : RGraph) (t : Triple) :
    (g.add t).triples.length ≤ g.triples.length + 1 := by
  unfold RGraph.add
  split <;> simp

lemma add_length_of_not_mem (g : RGraph) (t : Triple) (h : t ∉ g.triples) :
    (g.add t).triples.length = g.triples.length + 1 := by
  unfold RGraph.add
  rw [if_neg h]
  simp

lemma add_triples_of_not_mem (g : RGraph) (t : Triple) (h : t ∉ g.triples) :
    (g.add t).triples = g.triples ++ [t] := by
  unfold RGraph.add
  rw [if_neg h]

lemma validateStep_fold_spec (ts : List Triple) (acc : VAcc) :
    ts.foldl validateStep acc =
      ⟨acc.ss ∪ (ts.map Triple.subj).toFinset,
       acc.ps ∪ (ts.map Triple.pred).toFinset,
       acc.os ∪ (ts.map Triple.obj).toFinset,
       acc.bn + (ts.map Triple.subj).countP isBNodeB
              + (ts.map Triple.obj).countP isBNodeB,
       acc.lit + (ts.map Triple.obj).countP isLitB,
       acc.uri + (ts.map Triple.subj).countP isUriB
               + (ts.map Triple.obj).countP isUriB⟩ := by
  induction ts generalizing acc with
  | nil =>
    simp only [List.foldl_nil, List.map_nil, List.toFinset_nil, List.countP_nil]
    cases acc
    simp
  | cons t ts ih =>
    rw [List.foldl_cons, ih]
    have hstep : ∀ a : VAcc, validateStep a t =
        ⟨insert t.subj a.ss, insert t.pred a.ps, insert t.obj a.os,
         a.bn + (if isBNodeB t.subj then 1 else 0) + (if isBNodeB t.obj then 1 else 0),
         a.lit + (if isLitB t.obj then 1 else 0),
         a.uri + (if isUriB t.subj then 1 else 0) + (if isUriB t.obj then 1 else 0)⟩ := by
      intro a
      cases hs : t.subj <;> cases ho : t.obj <;>
        simp [validateStep, hs, ho, isBNodeB, isLitB, isUriB]
    rw [hstep]
    simp only [List.map_cons, List.toFinset_cons, List.countP_cons]
    simp only [VAcc.mk.injEq]
    refine ⟨?_, ?_, ?_, ?_, ?_, ?_⟩
    · rw [Finset.union_insert, Finset.insert_union]
    · rw [Finset.union_insert, Finset.insert_union]
    · rw [Finset.union_insert, Finset.insert_union]
    · cases hbs : isBNodeB t.subj <;> cases hbo : isBNodeB t.obj <;> simp <;> omega
    · cases hlo : isLitB t.obj <;> simp <;> omega
    · cases hus : isUriB t.subj <;> cases huo : isUriB t.obj <;> simp <;> omega

/-- C2 counterexample: on a single triple whose subject, predicate and
object are all URIs the code reports uris = 2, while counting once per
triple-position (subject, predicate and object) would give 3: the
predicate position is never tallied. -/
theorem C2_counterexample :
    (validate_graph exUriGraph).uris = 2
    ∧ uriOccurrencesAllPositions exUriGraph = 3
    ∧ (validate_graph exUriGraph).uris ≠ uriOccurrencesAllPositions exUriGraph := by
  refine ⟨?_, by decide, ?_⟩ <;> decide

/-- C2 (amended): validate_graph reports the exact triple count, the exact
numbers of distinct subjects, predicates and objects, and per-occurrence
(not deduplicated) tallies in which blank nodes are counted in the subject
and object positions, literals in the object position, and URIs in the
subject and object positions, the predicate position never being tallied. -/
theorem C2_validate_graph_stats (g : RGraph) :
    (validate_graph g).total_triples = g.triples.length
    ∧ (validate_graph g).unique_subjects = (g.triples.map Triple.subj).toFinset.card
    ∧ (validate_graph g).unique_predicates = (g.triples.map Triple.pred).toFinset.card
    ∧ (validate_graph g).unique_objects = (g.triples.map Triple.obj).toFinset.card
    ∧ (validate_graph g).blank_nodes
        = (g.triples.map Triple.subj).countP isBNodeB
          + (g.triples.map Triple.obj).countP isBNodeB
    ∧ (validate_graph g).literals = (g.triples.map Triple.obj).countP isLitB
    ∧ (validate_graph g).uris
        = (g.triples.map Triple.subj).countP isUriB
          + (g.triples.map Triple.obj).countP isUriB := by
  unfold validate_graph
  rw [validateStep_fold_spec]
  simp

lemma foldl_fst_const {α β γ : Type} (l : List γ) (f : β → γ → β) (a : α) (b : β) :
    l.foldl (fun (st : α × β) t => (st.1, f st.2 t)) (a, b)
      = (a, l.foldl f b) := by
  induction l generalizing b with
  | nil => rfl
  | cons t ts ih => simp [List.foldl_cons, ih]

/-- C9: the state-passing renderings of filter_graph and extract_schema
return the input graph unchanged in every run, and their second component
is exactly the freshly created result graph. -/
theorem C9_no_input_mutation (g : RGraph) (pf sf obf : Option (List PyStr)) :
    (filter_graph_run g pf sf obf).1 = g
    ∧ (filter_graph_run g pf sf obf).2 = filter_graph g pf sf obf
    ∧ (extract_schema_run g).1 = g
    ∧ (extract_schema_run g).2 = extract_schema g := by
  have hf := foldl_fst_const (α := RGraph) (β := RGraph) g.triples
    (fun fg t => if includeTriple pf sf obf t then fg.add t else fg)
    g (add_common_namespaces emptyGraph)
  have hs := foldl_fst_const (α := RGraph) (β := RGraph) g.triples
    (fun sg t => if isSchemaTriple t then sg.add t else sg)
    g (add_common_namespaces emptyGraph)
  exact ⟨congrArg Prod.fst hf, congrArg Prod.snd hf,
    congrArg Prod.fst hs, congrArg Prod.snd hs⟩

lemma includeStepFactor (flt : Option (List PyStr)) (x : PyStr) (b : Bool) :
    (if truthy flt && !((flt.getD []).contains x) then false else b)
      = (constraintB flt x && b) := by
  cases flt with
  | none => simp [truthy, constraintB]
  | some l =>
    cases hc : l.contains x <;> cases he : l.isEmpty <;>
      simp [truthy, constraintB, hc, he]

lemma includeTriple_eq (pf sf obf : Option (List PyStr)) (t : Triple) :
    includeTriple pf sf obf t
      = (constraintB pf (nodeStr t.pred) && constraintB sf (nodeStr t.subj)
          && constraintB obf (nodeStr t.obj)) := by
  simp only [includeTriple]
  rw [includeStepFactor, includeStepFactor, includeStepFactor]
  cases constraintB pf (nodeStr t.pred) <;>
    cases constraintB sf (nodeStr t.subj) <;>
    cases constraintB obf (nodeStr t.obj) <;> rfl

lemma foldl_add_filter (p : Triple → Bool) (ts : List Triple) (acc : RGraph)
    (hnd : ts.Nodup) (hdis : ∀ t ∈ ts, t ∉ acc.triples) :
    (ts.foldl (fun fg t => if p t then fg.add t else fg) acc).triples
      = acc.triples ++ ts.filter p := by
  induction ts generalizing acc with
  | nil => simp
  | cons t ts ih =>
    rcases List.nodup_cons.mp hnd with ⟨htts, hnd2⟩
    simp only [List.foldl_cons, List.filter_cons]
    cases hp : p t with
    | true =>
      have hna : t ∉ acc.triples := hdis t (by simp)
      rw [if_pos rfl, ih (acc.add t) hnd2 ?_]
      · rw [add_triples_of_not_mem acc t hna]
        simp
      · intro u hu
        rw [mem_add]
        push_neg
        exact ⟨fun h => htts (h ▸ hu), hdis u (List.mem_cons_of_mem t hu)⟩
    | false =>
      rw [if_neg (by simp [hp]), ih acc hnd2 (fun u hu => hdis u (List.mem_cons_of_mem t hu))]
      simp

/-- C6 counterexample: with a supplied but empty predicate allow-list, the
triple's predicate string does not appear in that list, yet filter_graph
keeps the triple (Python truthiness makes an empty list impose no
constraint), so the claimed if-and-only-if fails. -/
theorem C6_counterexample :
    exTriple ∈ (filter_graph exGraph1 (some []) none none).triples
    ∧ nodeStr exTriple.pred ∉ ([] : List PyStr) := by
  refine ⟨by decide, by decide⟩

/-- C6 (amended): on a duplicate-free graph, filter_graph keeps a triple
if and only if every supplied non-empty allow-list contains the matching
component's string form, absent or empty allow-lists imposing no
constraint (AND semantics); with only a non-empty predicate allow-list the
result is exactly the triples whose predicate string is in that list. -/
theorem C6_filter_graph (g : RGraph) (pf sf obf : Option (List PyStr))
    (hg : g.triples.Nodup) :
    (filter_graph g pf sf obf).triples
      = g.triples.filter (fun t =>
          constraintB pf (nodeStr t.pred) && constraintB sf (nodeStr t.subj)
            && constraintB obf (nodeStr t.obj))
    ∧ (∀ l : List PyStr, l ≠ [] →
        (filter_graph g (some l) none none).triples
          = g.triples.filter (fun t => l.contains (nodeStr t.pred))) := by
  have hmain : ∀ pf' sf' obf' : Option (List PyStr),
      (filter_graph g pf' sf' obf').triples
        = g.triples.filter (fun t =>
            constraintB pf' (nodeStr t.pred) && constraintB sf' (nodeStr t.subj)
              && constraintB obf' (nodeStr t.obj)) := by
    intro pf' sf' obf'
    unfold filter_graph
    rw [foldl_add_filter _ _ _ hg ?_]
    · rw [add_common_namespaces_triples]
      simp only [emptyGraph, List.nil_append]
      exact List.filter_congr (fun t _ => includeTriple_eq pf' sf' obf' t)
    · intro t _
      rw [add_common_namespaces_triples]
      simp [emptyGraph]
  refine ⟨hmain pf sf obf, ?_⟩
  intro l hl
  rw [hmain (some l) none none]
  refine List.filter_congr (fun t _ => ?_)
  have hle : l.isEmpty = false := by
    cases l with
    | nil => exact absurd rfl hl
    | cons a l => rfl
  simp [constraintB, hle]

/-- Witness for C6 at a concrete graph and a concrete non-empty predicate
allow-list containing the triple's predicate. -/
theorem C6_witness :
    (filter_graph exGraph1 (some [toPy "http://example.org/q"]) none none).triples
      = exGraph1.triples.filter
          (fun t => [toPy "http://example.org/q"].contains (nodeStr t.pred)) :=
  (C6_filter_graph exGraph1 (some [toPy "http://example.org/q"]) none none
      (by decide)).2 [toPy "http://example.org/q"] (by decide)

lemma mem_addAll (tg : RGraph) (ts : List Triple) (t' : Triple) :
    t' ∈ (addAll tg ts).triples ↔ t' ∈ tg.triples ∨ t' ∈ ts := by
  induction ts generalizing tg with
  | nil => simp [addAll]
  | cons t ts ih =>
    simp only [addAll, List.foldl_cons] at ih ⊢
    rw [ih, mem_add]
    simp only [List.mem_cons]
    tauto

lemma length_addAll_le (tg : RGraph) (ts : List Triple) :
    (addAll tg ts).triples.length ≤ tg.triples.length + ts.length := by
  induction ts generalizing tg with
  | nil => simp [addAll]
  | cons t ts ih =>
    simp only [addAll, List.foldl_cons] at ih ⊢
    calc ((ts.foldl RGraph.add (tg.add t)).triples).length
        ≤ (tg.add t).triples.length + ts.length := ih (tg.add t)
      _ ≤ tg.triples.length + 1 + ts.length :=
          Nat.add_le_add_right (add_length_le tg t) _
      _ = tg.triples.length + (ts.length + 1) := by omega

lemma length_addAll_eq (tg : RGraph) (ts : List Triple)
    (hnd : ts.Nodup) (hdis : ∀ t ∈ ts, t ∉ tg.triples) :
    (addAll tg ts).triples.length = tg.triples.length + ts.length := by
  induction ts generalizing tg with
  | nil => simp [addAll]
  | cons t ts ih =>
    rcases List.nodup_cons.mp hnd with ⟨htts, hnd2⟩
    simp only [addAll, List.foldl_cons] at ih ⊢
    rw [ih (tg.add t) hnd2 ?_]
    · rw [add_length_of_not_mem tg t (hdis t (by simp))]
      simp only [List.length_cons]
      omega
    · intro u hu
      rw [mem_add]
      push_neg
      exact ⟨fun h => htts (h ▸ hu), hdis u (List.mem_cons_of_mem t hu)⟩

lemma mem_merge_foldl (graphs : List RGraph) (tg : RGraph) (t : Triple) :
    t ∈ (graphs.foldl (fun tg g => addAll tg g.triples) tg).triples
      ↔ t ∈ tg.triples ∨ ∃ g ∈ graphs, t ∈ g.triples := by
  induction graphs generalizing tg with
  | nil => simp
  | cons g gs ih =>
    simp only [List.foldl_cons]
    rw [ih, mem_addAll]
    simp only [List.mem_cons]
    constructor
    · rintro ((h | h) | ⟨g', hg', h⟩)
      · exact Or.inl h
      · exact Or.inr ⟨g, Or.inl rfl, h⟩
      · exact Or.inr ⟨g', Or.inr hg', h⟩
    · rintro (h | ⟨g', (rfl | hg'), h⟩)
      · exact Or.inl (Or.inl h)
      · exact Or.inl (Or.inr h)
      · exact Or.inr ⟨g', hg', h⟩

/-- C7: merge_graphs unions all triples of the input graphs with set
semantics: a triple is in the merged graph exactly when some input graph
holds it, the merged length never exceeds the sum of the input lengths,
and for two duplicate-free graphs with disjoint triple sets the merged
length is exactly the sum. -/
theorem C7_merge_graphs :
    (∀ (graphs : List RGraph) (t : Triple),
        t ∈ (merge_graphs graphs none).triples ↔ ∃ g ∈ graphs, t ∈ g.triples)
    ∧ (∀ graphs : List RGraph,
        (merge_graphs graphs none).triples.length
          ≤ (graphs.map (fun g => g.triples.length)).sum)
    ∧ (∀ g1 g2 : RGraph, g1.triples.Nodup → g2.triples.Nodup →
        (∀ t ∈ g1.triples, t ∉ g2.triples) →
        (merge_graphs [g1, g2] none).triples.length
          = g1.triples.length + g2.triples.length) := by
  have hinit : (add_common_namespaces emptyGraph).triples = [] := by
    rw [add_common_namespaces_triples]
    rfl
  refine ⟨?_, ?_, ?_⟩
  · intro graphs t
    unfold merge_graphs
    rw [mem_merge_foldl, hinit]
    simp
  · intro graphs
    unfold merge_graphs
    have hgen : ∀ (gs : List RGraph) (tg : RGraph),
        (gs.foldl (fun tg g => addAll tg g.triples) tg).triples.length
          ≤ tg.triples.length + (gs.map (fun g => g.triples.length)).sum := by
      intro gs
      induction gs with
      | nil => simp
      | cons g gs ih =>
        intro tg
        simp only [List.foldl_cons, List.map_cons, List.sum_cons]
        calc ((gs.foldl (fun tg g => addAll tg g.triples) (addAll tg g.triples)).triples).length
            ≤ (addAll tg g.triples).triples.length
                + (gs.map (fun g => g.triples.length)).sum := ih _
          _ ≤ tg.triples.length + g.triples.length
                + (gs.map (fun g => g.triples.length)).sum :=
              Nat.add_le_add_right (length_addAll_le tg g.triples) _
          _ = tg.triples.length
                + (g.triples.length + (gs.map (fun g => g.triples.length)).sum) := by omega
    calc (List.foldl (fun tg g => addAll tg g.triples)
            (add_common_namespaces emptyGraph) graphs).triples.length
        ≤ (add_common_namespaces emptyGraph).triples.length
            + (graphs.map (fun g => g.triples.length)).sum := hgen graphs _
      _ = (graphs.map (fun g => g.triples.length)).sum := by rw [hinit]; simp
  · intro g1 g2 hnd1 hnd2 hdis
    unfold merge_graphs
    simp only [List.foldl_cons, List.foldl_nil]
    rw [length_addAll_eq _ _ hnd2 ?_, length_addAll_eq _ _ hnd1 ?_]
    · rw [hinit]
      simp only [List.length_nil]
      omega
    · intro t _
      rw [hinit]
      simp
    · intro t ht
      rw [mem_addAll, hinit]
      push_neg
      simp only [List.not_mem_nil, not_false_iff, true_and]
      intro hmem
      exact hdis t hmem ht

/-- Witness for C7 at two concrete disjoint one-triple graphs. -/
theorem C7_witness :
    (merge_graphs [exGraph1, exGraph2] none).triples.length = 2 := by
  simpa using C7_merge_graphs.2.2 exGraph1 exGraph2 (by decide) (by decide) (by decide)

lemma parse_to_dataset_foldl {E : Type} (parseSrc : PyStr → Except E RGraph)
    (sources : List PyStr) (acc : List (PyStr × RGraph)) :
    sources.foldl
        (fun ds s =>
          match parseSrc s with
          | .ok g => ds ++ [(s, g)]
          | .error _ => ds)
        acc
      = acc ++ sources.filterMap (fun s =>
          match parseSrc s with
          | .ok g => some (s, g)
          | .error _ => none) := by
  induction sources generalizing acc with
  | nil => simp
  | cons s rest ih =>
    simp only [List.foldl_cons, List.filterMap_cons]
    cases h : parseSrc s with
    | ok g => rw [ih]; simp
    | error e => rw [ih]

/-- C10: parse_to_dataset is total over the parse oracle: it returns the
named graphs of exactly the successfully parsed sources in order, an empty
dataset when every source fails, while the single-source parse surfaces
each oracle failure as a raised RDFParsingError. -/
theorem C10_parse_to_dataset {E : Type} (parseSrc : PyStr → Except E RGraph)
    (sources : List PyStr) :
    parse_to_dataset parseSrc sources
      = sources.filterMap (fun s =>
          match parseSrc s with
          | .ok g => some (s, g)
          | .error _ => none)
    ∧ ((∀ s ∈ sources, ∃ e, parseSrc s = .error e) →
        parse_to_dataset parseSrc sources = [])
    ∧ (∀ (toMsg : E → PyStr) (s : PyStr) (e : E), parseSrc s = .error e →
        parse_wrap parseSrc toMsg s
          = .error (toPy "RDF parsing failed: " ++ toMsg e)) := by
  refine ⟨?_, ?_, ?_⟩
  · unfold parse_to_dataset
    rw [parse_to_dataset_foldl]
    simp
  · intro hall
    unfold parse_to_dataset
    rw [parse_to_dataset_foldl]
    simp only [List.nil_append]
    rw [List.filterMap_eq_nil_iff]
    intro s hs
    rcases hall s hs with ⟨e, he⟩
    rw [he]
  · intro toMsg s e he
    unfold parse_wrap
    rw [he]

/-- Witness for C10 at a concrete all-failing oracle over two sources. -/
theorem C10_witness :
    parse_to_dataset failingOracle [toPy "a.ttl", toPy "b.ttl"] = [] :=
  (C10_parse_to_dataset failingOracle [toPy "a.ttl", toPy "b.ttl"]).2.1
    (fun _ _ => ⟨(), rfl⟩)

lemma toNat_ofNat_valid (n : Nat) (h : n.isValidChar) : (Char.ofNat n).toNat = n := by
  rw [Char.ofNat, dif_pos h]
  rfl

lemma pySpaceChain_eq_false_of_ge (m : Nat) (hm : 65 ≤ m) :
    (decide (m = 32) || decide (m = 9) || decide (m = 10) || decide (m = 13) ||
      decide (m = 11) || decide (m = 12)) = false := by
  simp
  omega

lemma isPySpace_toUpper (c : Char) : isPySpace c.toUpper = isPySpace c := by
  unfold Char.toUpper
  by_cases h : c.toNat ≥ 97 ∧ c.toNat ≤ 122
  · rw [if_pos h]
    have hv : (c.toNat - 32).isValidChar := Or.inl (by omega)
    have h1 : (Char.ofNat (c.toNat - 32)).toNat = c.toNat - 32 := toNat_ofNat_valid _ hv
    have hlo := h.1
    simp only [isPySpace, h1]
    rw [pySpaceChain_eq_false_of_ge _ (by omega), pySpaceChain_eq_false_of_ge _ (by omega)]
  · rw [if_neg h]

lemma trim_toUpper (s : PyStr) : trimPy (toUpperPy s) = toUpperPy (trimPy s) := by
  have hfun : (isPySpace ∘ Char.toUpper) = isPySpace := funext isPySpace_toUpper
  unfold trimPy toUpperPy
  rw [List.dropWhile_map, hfun, ← List.map_reverse, List.dropWhile_map, hfun,
    ← List.map_reverse]

lemma toUpperPy_append (a b : PyStr) :
    toUpperPy (a ++ b) = toUpperPy a ++ toUpperPy b := List.map_append _ _ _

lemma pattern_cond_eq (p q : PyStr) :
    isSubstr (toPy "PREFIX " ++ toUpperPy p ++ toPy ":") (toUpperPy q)
      = patternPresent p q := by
  unfold patternPresent
  rw [toUpperPy_append, toUpperPy_append]
  rw [show toUpperPy (toPy "PREFIX ") = toPy "PREFIX " from by decide,
    show toUpperPy (toPy ":") = toPy ":" from by decide]

lemma foldl_if_filter_map {α β : Type} (cond : α → Bool) (f : α → β)
    (l : List α) (acc : List β) :
    l.foldl (fun acc p => if cond p then acc else acc ++ [f p]) acc
      = acc ++ (l.filter (fun p => !cond p)).map f := by
  induction l generalizing acc with
  | nil => simp
  | cons p rest ih =>
    simp only [List.foldl_cons, List.filter_cons]
    cases hc : cond p with
    | true => rw [if_pos rfl, ih acc]; simp
    | false => rw [if_neg (by simp), ih (acc ++ [f p])]; simp

/-- C3: prefix injection adds exactly the fixed default entries whose
declaration pattern PREFIX name: is not already a case-insensitive
substring of the query text, prepending their declarations, and a query
already containing all nine patterns is passed on unchanged. -/
theorem C3_add_default_prefixes (q : PyStr) :
    add_default_prefixes q = add_default_prefixes_spec q
    ∧ ((∀ p ∈ default_prefixes, patternPresent p.1 q = true) →
        add_default_prefixes q = q) := by
  have hmain : add_default_prefixes q = add_default_prefixes_spec q := by
    simp only [add_default_prefixes, add_default_prefixes_spec]
    rw [foldl_if_filter_map]
    have hfc : default_prefixes.filter
          (fun p => !isSubstr (toPy "PREFIX " ++ toUpperPy p.1 ++ toPy ":") (toUpperPy q))
        = default_prefixes.filter (fun p => !patternPresent p.1 q) :=
      List.filter_congr (fun p _ => by rw [pattern_cond_eq])
    rw [hfc]
    simp only [List.nil_append]
    by_cases hm : default_prefixes.filter (fun p => !patternPresent p.1 q) = []
    · rw [hm]
      simp
    · rw [if_neg (by simpa using hm), if_neg hm]
  refine ⟨hmain, fun hall => ?_⟩
  rw [hmain]
  unfold add_default_prefixes_spec
  have hm : default_prefixes.filter (fun p => !patternPresent p.1 q) = [] := by
    rw [List.filter_eq_nil_iff]
    intro p hp
    simp [hall p hp]
  rw [hm]
  simp

/-- Witness for C3: the all-nine-patterns query passes through unchanged. -/
theorem C3_witness : add_default_prefixes allNineQuery = allNineQuery :=
  (C3_add_default_prefixes allNineQuery).2 (by decide)

lemma get_query_type_eq_spec (q : PyStr) :
    get_query_type q = leadingKeywordSpec q := by
  simp only [get_query_type, leadingKeywordSpec, ciStartsWith, trim_toUpper]
  simp only [show toUpperPy (toPy "SELECT") = toPy "SELECT" from by decide,
    show toUpperPy (toPy "CONSTRUCT") = toPy "CONSTRUCT" from by decide,
    show toUpperPy (toPy "ASK") = toPy "ASK" from by decide,
    show toUpperPy (toPy "DESCRIBE") = toPy "DESCRIBE" from by decide]

/-- C5: validate_query never raises; when preparation of the
prefix-augmented query succeeds it reports valid with no errors, the
leading keyword determined by case-insensitive prefix match on the trimmed
text, and the line-scanned PREFIX declarations; when preparation fails it
reports invalid with the error message captured. -/
theorem C5_validate_query (prep : PyStr → Except PyStr Unit) (q : PyStr) :
    ((prep (add_default_prefixes q)).isOk = true →
      validate_query prep q
        = { valid := true
            query_type := some (leadingKeywordSpec q)
            prefixes := extract_prefixes q
            errors := [] })
    ∧ (∀ e, prep (add_default_prefixes q) = .error e →
      validate_query prep q
        = { valid := false
            query_type := none
            prefixes := []
            errors := [e] }) := by
  constructor
  · intro hok
    unfold validate_query
    cases h : prep (add_default_prefixes q) with
    | ok u => rw [get_query_type_eq_spec]
    | error e => rw [h] at hok; simp [Except.isOk, Except.toBool] at hok
  · intro e he
    unfold validate_query
    rw [he]

/-- Witness for C5 at the concrete oracles and the spec's example query:
acceptance yields the valid SELECT report, rejection the captured error. -/
theorem C5_witness :
    validate_query prepOkOracle exSelectQuery
      = { valid := true
          query_type := some (leadingKeywordSpec exSelectQuery)
          prefixes := extract_prefixes exSelectQuery
          errors := [] }
    ∧ validate_query prepFailOracle exSelectQuery
      = { valid := false
          query_type := none
          prefixes := []
          errors := [toPy "Expected SelectQuery, found end of text"] }
    ∧ leadingKeywordSpec exSelectQuery = toPy "SELECT"
    ∧ extract_prefixes exSelectQuery = [] :=
  ⟨(C5_validate_query prepOkOracle exSelectQuery).1 rfl,
   (C5_validate_query prepFailOracle exSelectQuery).2
     (toPy "Expected SelectQuery, found end of text") rfl,
   by decide, by decide⟩

end SARDF
